import Mathlib

/-!
Shallow embedding of the depster griefer bot (src/depster.js, with the
earlier revision src/unnamed/part_000 as secondary reference) and proofs
about its fleet supervisor and per-agent behavior engine.

Modelling conventions:
* 3D positions are integer vectors (`Vec3i`).  The source compares
  Euclidean distances (`Vec3.distanceTo`); since squaring is monotone on
  nonnegative reals, every comparison `distanceTo p q > r` (with `r ≥ 0`)
  is embedded as `r * r < distSq p q`, and the ascending-distance sort
  order coincides with the ascending squared-distance order.
* JavaScript `Map` objects are embedded as association lists in insertion
  order (`WorkerMap`), with `get` / `set` / `delete` matching the JS
  semantics: `set` of an existing key updates it in place, `set` of a new
  key appends, `delete` removes the key.
* Times (`Date.now()`, click delays) are rationals.
* The dashboard angles computed by the `clearmap` broadcast are real
  numbers (`(index / workers.length) * 2 * Math.PI`).
* Remote-world calls that can fail at runtime (`lookAt`, `equip`,
  `placeBlock`, `creative.setInventorySlot`) are driven by failure flags
  in the environment record, and a raised JS exception is modelled as a
  `thrown` field carried alongside the mutated state, so that `try/catch`
  blocks of the source translate to `match` on that field.
-/

namespace Depster

/-- Integer 3D vector, embedding `vec3`'s `Vec3` restricted to the integer
grid on which all block positions live. -/
structure Vec3i where
  x : Int
  y : Int
  z : Int
deriving DecidableEq, Repr

/-- `a.plus b`, the componentwise sum (`Vec3.plus`). -/
def Vec3i.plus (a b : Vec3i) : Vec3i := ⟨a.x + b.x, a.y + b.y, a.z + b.z⟩

/-- `p.offset dx dy dz` (`Vec3.offset`). -/
def Vec3i.offset (p : Vec3i) (dx dy dz : Int) : Vec3i :=
  ⟨p.x + dx, p.y + dy, p.z + dz⟩

/-- Squared Euclidean distance between two grid points; the embedding of
`Vec3.distanceTo` (see the file comment: all comparisons of distances in
the source are order-isomorphic to comparisons of squared distances). -/
def distSq (a b : Vec3i) : Int :=
  (a.x - b.x) * (a.x - b.x) + (a.y - b.y) * (a.y - b.y) + (a.z - b.z) * (a.z - b.z)

/-- The inclusive integer range `[a..b]`, the index set of a JS
`for (let i = a; i <= b; i++)` loop. -/
def intRange (a b : Int) : List Int :=
  (List.range (b + 1 - a).toNat).map fun i : Nat => (a + i : Int)

/-- The data of one world block used by the bot: its display name
(`b.name`), its numeric material id (`b.type`, written `btype` because
`type` is reserved) and its bounding-box kind (`b.boundingBox`, the
string "empty" or "block"). -/
structure BlockData where
  name : String
  btype : Int
  boundingBox : String
deriving DecidableEq, Repr

/-- The remote world as seen through `bot.blockAt`: `none` models a
position with no loaded block (the `!b` guard of the source). -/
abbrev World := Vec3i → Option BlockData

/-- Functional update of the world at one position: the effect of a
successful `bot.placeBlock` there. -/
def worldSet (w : World) (p : Vec3i) (b : BlockData) : World :=
  fun q => if q = p then some b else w q

/-- The `block && block.boundingBox === 'empty'` test of `trapLogic`. -/
def emptyAt (w : World) (p : Vec3i) : Bool :=
  match w p with
  | some b => b.boundingBox = "empty"
  | none => false

/-- The `referenceBlock && referenceBlock.boundingBox === 'block'` test of
`trapLogic`. -/
def solidAt (w : World) (p : Vec3i) : Bool :=
  match w p with
  | some b => b.boundingBox = "block"
  | none => false

/-- The cube enumeration and filtering of the earlier revision's
`griefLogic` (src/unnamed/part_000:374-382, where the scan is live):
every offset in the cube of half-width `cfg.scanRadius` around
`targetPos`, skipping positions farther than `cfg.maxDig` from the agent
(`bot.entity.position.distanceTo(bpos) > cfg.maxDig`, embedded as a
squared comparison), unloaded blocks (`!b`), air, and protected material
ids.  The nested `flatMap`s visit positions in the order of the three
nested `for` loops.  src/depster.js:334-342 carries textually parallel
loops, but there the config values appear as the bare identifiers
`scanRadius` / `maxDig`, which are bound nowhere in that scope, so those
lines never execute — see `griefLogic`. -/
def griefCandidates (prot : List Int) (w : World) (botPos targetPos : Vec3i)
    (scanRadius maxDig : Int) : List (Vec3i × BlockData) :=
  (intRange (-scanRadius) scanRadius).flatMap fun dx =>
  (intRange (-scanRadius) scanRadius).flatMap fun dy =>
  (intRange (-scanRadius) scanRadius).flatMap fun dz =>
    let bpos := targetPos.offset dx dy dz
    if maxDig * maxDig < distSq botPos bpos then []
    else
      match w bpos with
      | none => []
      | some b =>
        if b.name = "air" then []
        else if b.btype ∈ prot then []
        else [(bpos, b)]

/-- The ascending-distance order of the comparator
`(a, b) => dist(a.position) - dist(b.position)` in `blocks.sort`,
as a relation on scan survivors (order-isomorphic to comparing the real
distances, since both are nonnegative). -/
def distLE (botPos : Vec3i) (a b : Vec3i × BlockData) : Prop :=
  distSq botPos a.1 ≤ distSq botPos b.1

instance (botPos : Vec3i) : DecidableRel (distLE botPos) := fun _ _ => Int.decLe _ _

instance (botPos : Vec3i) : IsTotal (Vec3i × BlockData) (distLE botPos) :=
  ⟨fun _ _ => le_total _ _⟩

instance (botPos : Vec3i) : IsTrans (Vec3i × BlockData) (distLE botPos) :=
  ⟨fun _ _ _ => le_trans⟩

/-- `blocks.sort((a, b) => distTo(a) - distTo(b))` followed by
`blocks[0]` in the earlier revision's `griefLogic`
(src/unnamed/part_000:383-386): the survivors stably sorted by ascending
distance from the agent (JS `Array.prototype.sort` is stable, matched
here by insertion sort) and the nearest survivor selected; `none` when no
survivor exists (the `if (blocks.length === 0) return` early exit). -/
def griefSelect (prot : List Int) (w : World) (botPos targetPos : Vec3i)
    (scanRadius maxDig : Int) : Option (Vec3i × BlockData) :=
  (List.insertionSort (distLE botPos)
    (griefCandidates prot w botPos targetPos scanRadius maxDig)).head?

/-- A concrete two-block world for evaluating the scan: a stone block one
step east of the origin and a protected bedrock block one step up. -/
def w1 : World := fun p =>
  if p = ⟨1, 0, 0⟩ then some ⟨"stone", 1, "block"⟩
  else if p = ⟨0, 1, 0⟩ then some ⟨"bedrock", 5, "block"⟩
  else none

/-- The role tag of a trap offset (`type: 'floor' | 'wall' | 'roof'` in
src/depster.js:210-230; the earlier revision stores bare vectors). -/
inductive TrapRole where
  | floor
  | wall
  | roof
deriving DecidableEq, Repr

/-- One precomputed trap offset, `{ pos, type }` in the source. -/
structure TrapOffset where
  pos : Vec3i
  role : TrapRole
deriving DecidableEq, Repr

/-- The floor ring pushed by the first loop: 8 offsets at `y = -1`,
skipping `x === 0 && z === 0`. -/
def floorOffsets : List TrapOffset :=
  (intRange (-1) 1).flatMap fun x =>
    (intRange (-1) 1).flatMap fun z =>
      if x = 0 ∧ z = 0 then [] else [⟨⟨x, -1, z⟩, .floor⟩]

/-- The two wall layers pushed by the second loop: 8 offsets per
`y ∈ {0, 1}`, in source push order. -/
def wallOffsets : List TrapOffset :=
  (intRange 0 1).flatMap fun y =>
    [⟨⟨-1, y, -1⟩, .wall⟩, ⟨⟨-1, y, 1⟩, .wall⟩,
     ⟨⟨1, y, -1⟩, .wall⟩, ⟨⟨1, y, 1⟩, .wall⟩,
     ⟨⟨0, y, -1⟩, .wall⟩, ⟨⟨0, y, 1⟩, .wall⟩,
     ⟨⟨-1, y, 0⟩, .wall⟩, ⟨⟨1, y, 0⟩, .wall⟩]

/-- The roof pushed by the third loop: 9 offsets at `y = 2`. -/
def roofOffsets : List TrapOffset :=
  (intRange (-1) 1).flatMap fun x =>
    (intRange (-1) 1).flatMap fun z => [⟨⟨x, 2, z⟩, .roof⟩]

/-- `trapOffsets` (src/depster.js:210-230): floor ring, then walls, then
roof, in push order. -/
def trapOffsets : List TrapOffset := floorOffsets ++ wallOffsets ++ roofOffsets

/-- One `activeWorkers` entry of the fleet supervisor (src/depster.js:44):
the execution unit, identified by a numeric id standing for the JS
`Worker` object reference, and the final authenticated username once
known (`{ worker, finalUsername }`). -/
structure WorkerEntry where
  worker : Nat
  finalUsername : Option String
deriving DecidableEq, Repr

/-- The supervisor's `activeWorkers` JS `Map` keyed by initial username,
as an association list in insertion order. -/
abbrev WorkerMap := List (String × WorkerEntry)

/-- `map.get(k)`. -/
def mapGet (m : WorkerMap) (k : String) : Option WorkerEntry :=
  (m.find? fun kv => kv.1 = k).map fun kv => kv.2

/-- `map.set(k, v)`: a JS `Map` updates an existing key in place and
appends a new key at the end of the insertion order. -/
def mapSet (m : WorkerMap) (k : String) (v : WorkerEntry) : WorkerMap :=
  if (m.find? fun kv => kv.1 = k).isSome then
    m.map fun kv => if kv.1 = k then (k, v) else kv
  else m ++ [(k, v)]

/-- `map.delete(k)`. -/
def mapDelete (m : WorkerMap) (k : String) : WorkerMap :=
  m.filter fun kv => ¬kv.1 = k

/-- `spawnWorkerFor(username, ...)`'s effect on the identity map
(src/depster.js:67-77): no-op when the handle already has a live unit,
else register the fresh unit under the handle with no final name yet. -/
def spawnWorkerFor (m : WorkerMap) (username : String) (worker : Nat) : WorkerMap :=
  if (mapGet m username).isSome then m else m ++ [(username, ⟨worker, none⟩)]

/-- Supervisor events emitted to the dashboard (`io.emit`). -/
inductive SupEffect where
  | botAuthenticated (tempUsername finalUsername : String)
  | botOffline (username : String)
deriving DecidableEq, Repr

/-- The `case 'authenticated'` branch of the supervisor's per-worker
message handler (src/depster.js:86-105): record the final username on the
entry keyed by the message's initial username; when the unit is an
authentication-flow unit, re-key the identity map from initial to final
username (`delete` then `set` of the same, updated, entry object); emit
`bot-authenticated`. -/
def handleAuthenticated (m : WorkerMap) (initialUsername finalUsername : String)
    (isAuthWorker : Bool) : WorkerMap × List SupEffect :=
  let m2 :=
    match mapGet m initialUsername with
    | none => m
    | some workerEntry =>
      let workerEntry2 := { workerEntry with finalUsername := some finalUsername }
      let m1 := mapSet m initialUsername workerEntry2
      if isAuthWorker then mapSet (mapDelete m1 initialUsername) finalUsername workerEntry2
      else m1
  (m2, [.botAuthenticated initialUsername finalUsername])

/-- A scheduled respawn: the `setTimeout` delay in milliseconds and the
handle passed back to `spawnWorkerFor` (src/depster.js:138-143). -/
structure Respawn where
  delayMs : ℚ
  username : String
deriving DecidableEq, Repr

/-- The supervisor's `worker.on('exit')` handler (src/depster.js:121-145):
scan the identity map in insertion order for the entry owning the exited
unit; if found, remove it, emit `bot-offline` under the final username
when recorded (else the map key), and schedule
`spawnWorkerFor(exitedBotKey, false)` after 5000 ms exactly when the exit
code is nonzero and the unit is not an authentication-flow unit. -/
def onWorkerExit (m : WorkerMap) (worker : Nat) (code : Int) (isAuthWorker : Bool) :
    WorkerMap × List SupEffect × Option Respawn :=
  match m.find? fun kv => kv.2.worker = worker with
  | none => (m, [], none)
  | some kv =>
    let exitedBotKey := kv.1
    let offlineUsername := kv.2.finalUsername.getD exitedBotKey
    (mapDelete m exitedBotKey,
     [.botOffline offlineUsername],
     if code ≠ 0 ∧ isAuthWorker = false then some ⟨5000, exitedBotKey⟩ else none)

/-- A dashboard command message, `{type: 'command', command, ...params}`.
The optional fields cover every parameter the repository's commands carry
(`target`, `angle`, `message`); a field absent from the original JS
object is `none`.  The sweep angle is a real number, as computed from
`Math.PI` by the supervisor. -/
structure CmdMsg where
  command : String
  target : Option String
  angle : Option ℝ
  message : Option String

/-- The dashboard `send-command` broadcast (src/depster.js:159-174): the
sweep command `clearmap` sends each live unit, in identity-map index
order, only its own angle `(index / workers.length) * 2 * Math.PI`; every
other command is posted to every live unit with its parameters merged
with the command name (`{ type: 'command', ...data }`). -/
noncomputable def sendCommand (m : WorkerMap) (data : CmdMsg) : List (Nat × CmdMsg) :=
  if data.command = "clearmap" then
    let workers := m.map fun kv => kv.2.worker
    workers.enum.map fun iw =>
      (iw.2, ⟨"clearmap", none,
        some (((iw.1 : ℝ) / (workers.length : ℝ)) * (2 * Real.pi)), none⟩)
  else
    m.map fun kv => (kv.2.worker, data)

/-- A pathfinder goal (the `mineflayer-pathfinder` goals the source
builds): `goalFollow` records the followed player's name and range,
`goalBlock` a block position, `goalXZ` a horizontal destination. -/
inductive Goal where
  | goalFollow (target : String) (range : ℚ)
  | goalBlock (p : Vec3i)
  | goalXZ (x z : ℝ)

/-- The per-unit behavior state `bot.state` (src/depster.js:280) together
with the two engine fields the handlers mutate alongside it: the sprint
control (`bot.controlState.sprint`) and the current pathfinder goal
(`bot.pathfinder.setGoal` / `bot.pathfinder.stop()`, `none` = no goal). -/
structure BotState where
  target : Option String
  mode : Option String
  lastDig : ℚ
  clearMapAngle : ℝ
  isTrapping : Bool
  sprint : Bool
  goal : Option Goal

/-- A `bot.players[name]` record: present when the player is known to the
unit; `entity` carries the entity position when the player is in visible
range (the `player?.entity` test). -/
structure PlayerRec where
  entity : Option Vec3i
deriving DecidableEq, Repr

/-- Observable actions of one unit: messages sent up to the supervisor
(`log`, `err`, `updateStatus`), in-world chat, and the remote primitive
actions fired by the behavior engine. -/
inductive WEffect where
  | log (text : String)
  | errorMsg (text : String)
  | status (text : String)
  | chat (text : String)
  | lookAt (p : Vec3i)
  | dig (p : Vec3i)
deriving DecidableEq, Repr

/-- The worker-relevant `sharedConfig` fields (src/depster.js:17-27).
`protectedIds` stands for the derived set of material ids of
`protectedNames` resolved through `minecraft-data` (src/depster.js:201);
the external id data is modelled as an explicit list. -/
structure SharedConfig where
  cps : ℚ
  clickDelay : ℚ
  scanRadius : Int
  maxDig : Int
  trapBlock : String
  protectedIds : List Int

/-- The per-tick environment of one unit: what the remote connection and
runtime supply.  `cosAngle` / `sinAngle` model `Math.cos` / `Math.sin`;
the failure flags state whether each fallible remote call (`lookAt`,
`equip`, `placeBlock`, `creative.setInventorySlot`) would reject, and the
inventory flags drive `getBlockInHand`. -/
structure WorkerEnv where
  players : String → Option PlayerRec
  botPos : Vec3i
  now : ℚ
  isMoving : Bool
  cosAngle : ℝ → ℝ
  sinAngle : ℝ → ℝ
  lookFails : Bool
  equipFails : Bool
  placeOk : Vec3i → Vec3i → Bool
  itemKnown : Bool
  hasItem : Bool
  creative : Bool
  giveOk : Bool
  hasItemAfterGive : Bool

/-- `s.charAt(0).toUpperCase() + s.slice(1)`, building the status line
"<Mode>ing <target>". -/
def capFirst (s : String) : String :=
  match s.data with
  | [] => ""
  | c :: rest => String.mk (c.toUpper :: rest)

/-- `resetState` (src/depster.js:233-240): clear target, mode and the
building guard, stop sprinting, cancel the pathfinder goal, report
"Idle". -/
def resetState (s : BotState) : BotState × List WEffect :=
  ({ s with
      target := none
      mode := none
      isTrapping := false
      sprint := false
      goal := none },
   [.status "Idle"])

/-- The worker's `parentPort.on('message')` command handler
(src/depster.js:231-270).  `follow`/`grief`/`trap` require a target name
that is present, nonempty (JS falsiness of `''`) and currently visible
(`bot.players[targetName]`); otherwise the command is rejected with only
a log line and no state change.  On acceptance the state is reset first,
then mode and target are set and a status line is reported.  `clearmap`
resets and stores the assigned sweep angle (supervisor-built sweep
messages always carry one; a missing angle is read as 0 here, and the
`toFixed(2)` interpolation of the log line is omitted), `stop` resets
unconditionally, `chat` relays the message verbatim. -/
def handleCommand (env : WorkerEnv) (s : BotState) (msg : CmdMsg) :
    BotState × List WEffect :=
  if msg.command = "follow" ∨ msg.command = "grief" ∨ msg.command = "trap" then
    match msg.target with
    | none => (s, [.log "Target player name is required."])
    | some targetName =>
      if targetName = "" then (s, [.log "Target player name is required."])
      else
        match env.players targetName with
        | none => (s, [.log ("Can't see target player " ++ targetName ++ ".")])
        | some _ =>
          let (s1, e1) := resetState s
          ({ s1 with target := some targetName, mode := some msg.command },
           e1 ++ [.log ("Executing '" ++ msg.command ++ "' on " ++ targetName ++ "."),
             .status (capFirst msg.command ++ "ing " ++ targetName)])
  else if msg.command = "clearmap" then
    let (s1, e1) := resetState s
    ({ s1 with mode := some "clearmap", clearMapAngle := msg.angle.getD 0 },
     e1 ++ [.log "Initializing clearmap protocol.", .status "Clearing Map"])
  else if msg.command = "stop" then
    let (s1, e1) := resetState s
    (s1, [.log "Stopping current action."] ++ e1)
  else if msg.command = "chat" then
    (s, [.chat (msg.message.getD "")])
  else (s, [])

/-- `getBlockInHand(itemName)` (src/depster.js:404-424): whether one unit
of the building material ends up held, with the side effects; `none` when
the item id is unknown to `minecraft-data`, the inventory lacks it and the
unit is not in creative, or after the creative grant path fails.  The
creative path logs after a successful `setInventorySlot` and re-checks the
inventory; a rejected `setInventorySlot` is caught and reported as an
error. -/
def getBlockInHand (env : WorkerEnv) (itemName : String) :
    Option Unit × List WEffect :=
  if ¬env.itemKnown then (none, [])
  else if env.hasItem then (some (), [])
  else if env.creative then
    if env.giveOk then
      ((if env.hasItemAfterGive then some () else none),
       [.log ("Gave myself a stack of " ++ itemName ++ ".")])
    else (none, [.errorMsg "setInventorySlot rejected"])
  else (none, [])

/-- The six axis-adjacent neighbor offsets checked for a placement
reference block (src/depster.js:378-381, in source order). -/
def adjacentOffsets : List Vec3i :=
  [⟨0, -1, 0⟩, ⟨0, 1, 0⟩, ⟨-1, 0, 0⟩, ⟨1, 0, 0⟩, ⟨0, 0, -1⟩, ⟨0, 0, 1⟩]

/-- The block present after a successful placement of the configured trap
material; the numeric id is a fixed representative of the external
minecraft-data item id. -/
def placedBlock (itemName : String) : BlockData := ⟨itemName, 9, "block"⟩

/-- One iteration of the trap construction loop (src/depster.js:371-398):
if the offset position currently holds an empty-bounding-box block, scan
its six axis-adjacent neighbors in order for a solid reference block
against which `placeBlock` succeeds — a placement rejection is caught and
the next reference tried — and the first success fills the position with
the trap material and breaks to the next offset. -/
def placeTrapBlock (env : WorkerEnv) (itemName : String) (w : World)
    (blockPos : Vec3i) : World :=
  if emptyAt w blockPos then
    match adjacentOffsets.find? fun adjOffset =>
        solidAt w (blockPos.plus adjOffset) &&
          env.placeOk (blockPos.plus adjOffset) blockPos with
    | some _ => worldSet w blockPos (placedBlock itemName)
    | none => w
  else w

/-- The full construction pass of `trapLogic`: every trap offset visited
in `trapOffsets` order, each applied at `playerPos.plus(offset)`. -/
def trapBuild (env : WorkerEnv) (itemName : String) (playerPos : Vec3i)
    (w : World) : World :=
  (trapOffsets.map fun t => playerPos.plus t.pos).foldl
    (placeTrapBlock env itemName) w

/-- `trapLogic(targetEntity)` (src/depster.js:352-403): re-entry guard on
`isTrapping`; while farther than 4.5 from the target only approach
(squared comparison `81 < 4 * distSq`); within range stop navigation, set
the guard, acquire the trap material (on failure log, clear the guard,
drop to idle), equip it (a rejected `equip` is an uncaught throw,
recorded in the last component), run the construction loop over the
floored target position (the identity on this integer grid), report
completion and switch to following the target. -/
def trapLogic (cfg : SharedConfig) (env : WorkerEnv) (w : World) (s : BotState)
    (targetEntityPos : Vec3i) : BotState × World × List WEffect × Option String :=
  if s.isTrapping then (s, w, [], none)
  else if 81 < 4 * distSq env.botPos targetEntityPos then
    ({ s with goal := some (.goalFollow (s.target.getD "") (7 / 2)) }, w, [], none)
  else
    let s1 := { s with goal := none, isTrapping := true }
    match getBlockInHand env cfg.trapBlock with
    | (none, e1) =>
      ({ s1 with isTrapping := false, mode := none }, w,
       e1 ++ [.log ("Cannot find or get " ++ cfg.trapBlock ++ " to trap with. Aborting."),
         .status "Idle"], none)
    | (some _, e1) =>
      if env.equipFails then (s1, w, e1, some "equip rejected")
      else
        let w2 := trapBuild env cfg.trapBlock targetEntityPos w
        ({ s1 with mode := some "follow", isTrapping := false }, w2,
         e1 ++ [.log ("Trap for " ++ s.target.getD "null" ++ " should be complete."),
           .status ("Following " ++ s.target.getD "null")], none)

/-- `griefLogic(targetPos)` as src/depster.js:331-351 actually behaves:
line 332 sets the block goal onto the target position, then the first
loop header (line 334) reads the bare identifier `scanRadius`.  No
binding of that name exists in the worker scope — the config values live
only in the `cfg` object — so every call throws
`ReferenceError: scanRadius is not defined` before any block is
examined, and lines 335-350 (the scan, the sort and selection, the
`clickDelay` rate gate, the look and the dig) are unreachable dead code.
The throw propagates out of the `async` function into the tick handler's
`catch`. -/
def griefLogic (w : World) (s : BotState) (targetPos : Vec3i) :
    BotState × World × List WEffect × Option String :=
  ({ s with goal := some (.goalBlock targetPos) }, w, [],
   some "ReferenceError: scanRadius is not defined")

/-- `griefLogic(targetPos)` of the earlier revision
(src/unnamed/part_000:372-395), where the scan is live: collect and
filter the cube and select the nearest survivor through `griefSelect`
(returning when nothing survived); skip when `cfg.clickDelay` has not
elapsed since `lastDig`; else stamp `lastDig := Date.now()` and attempt
the look and the dig inside a `try/catch` that swallows rejections (a
rejected look skips the dig, a dig rejection is ignored after the
attempt).  This revision's `griefLogic` sets no goal itself — its tick
handler set a follow goal before the call. -/
def griefLogicP0 (cfg : SharedConfig) (env : WorkerEnv) (w : World) (s : BotState)
    (targetPos : Vec3i) : BotState × World × List WEffect :=
  match griefSelect cfg.protectedIds w env.botPos targetPos cfg.scanRadius cfg.maxDig with
  | none => (s, w, [])
  | some (p, _) =>
    if env.now - s.lastDig < cfg.clickDelay then (s, w, [])
    else
      let s1 := { s with lastDig := env.now }
      if env.lookFails then (s1, w, [])
      else (s1, w, [.lookAt p, .dig p])

/-- The body of the `bot.on('physicsTick')` handler
(src/depster.js:297-330) before its `try/catch`: a `none` mode is a
no-op; otherwise the stored target is resolved through `bot.players`
each tick and, in the three target-directed modes, a missing live entity
drops the unit to idle with status "Idle"; per-mode behavior then runs
(`follow` sprints toward the target, `grief` sprints and awaits
`griefLogic` — which in this revision always throws, see `griefLogic` —
`trap` runs `trapLogic`, `clearmap` sprints and, when not already
navigating, sets a distant goal along the stored angle).  The last
component carries a JS exception escaping the body, if any. -/
def physicsTickBody (cfg : SharedConfig) (env : WorkerEnv) (w : World)
    (s : BotState) : BotState × World × List WEffect × Option String :=
  match s.mode with
  | none => (s, w, [], none)
  | some m =>
    let player :=
      match s.target with
      | some targetName => env.players targetName
      | none => none
    if m = "follow" then
      match player.bind PlayerRec.entity with
      | none => ({ s with mode := none }, w, [.status "Idle"], none)
      | some _ =>
        ({ s with sprint := true, goal := some (.goalFollow (s.target.getD "") 1) },
         w, [], none)
    else if m = "grief" then
      match player.bind PlayerRec.entity with
      | none => ({ s with mode := none }, w, [.status "Idle"], none)
      | some epos => griefLogic w { s with sprint := true } epos
    else if m = "trap" then
      match player.bind PlayerRec.entity with
      | none => ({ s with mode := none }, w, [.status "Idle"], none)
      | some epos => trapLogic cfg env w s epos
    else if m = "clearmap" then
      let s1 := { s with sprint := true }
      if env.isMoving then (s1, w, [], none)
      else
        ({ s1 with goal := some (.goalXZ
            ((env.botPos.x : ℝ) + 10000 * env.cosAngle s.clearMapAngle)
            ((env.botPos.z : ℝ) + 10000 * env.sinAngle s.clearMapAngle)) },
         w, [.log "Set new distant goal in my assigned direction."], none)
    else (s, w, [], none)

/-- The `physicsTick` handler with its `try { ... } catch (e) { err(e); }`
wrapper (src/depster.js:297-330): an exception escaping the body is
converted into an `error` message to the supervisor, and the unit
continues with the state as of the throw point. -/
def physicsTick (cfg : SharedConfig) (env : WorkerEnv) (w : World)
    (s : BotState) : BotState × World × List WEffect :=
  match physicsTickBody cfg env w s with
  | (s2, w2, effs, none) => (s2, w2, effs)
  | (s2, w2, effs, some e) => (s2, w2, effs ++ [.errorMsg e])

/-- The behavior state at unit start (src/depster.js:280), with sprint off
and no pathfinder goal. -/
def initialBotState : BotState := ⟨none, none, 0, 0, false, false, none⟩

/-- A small concrete environment for witnesses: no players visible, the
unit at the origin, mid-navigation, every remote call succeeding, the
trap material already in inventory. -/
def env0 : WorkerEnv :=
  ⟨fun _ => none, ⟨0, 0, 0⟩, 0, true, fun _ => 0, fun _ => 0,
   false, false, fun _ _ => true, true, true, false, true, true⟩

/-- The depster.js revision's config values (cps 20, clickDelay 1000/20,
scan radius 8, max dig 8, dirt), with a singleton protected-id list
standing for the resolved `protectedNames`. -/
def cfg0 : SharedConfig := ⟨20, 1000 / 20, 8, 8, "dirt", [5]⟩

/-- The empty world: nothing loaded. -/
def w0 : World := fun _ => none

/-- A world with a solid 3×3 stone platform at `y = -1` around the origin
column and air blocks everywhere else. -/
def wPlat : World := fun p =>
  if p.y = -1 ∧ -1 ≤ p.x ∧ p.x ≤ 1 ∧ -1 ≤ p.z ∧ p.z ≤ 1 then
    some ⟨"stone", 1, "block"⟩
  else some ⟨"air", 0, "empty"⟩

/-- `env0` with the player "Bob" visible at the origin. -/
def envBob : WorkerEnv :=
  { env0 with players := fun n => if n = "Bob" then some ⟨some ⟨0, 0, 0⟩⟩ else none }

/-- `envBob` with every placement rejected by the remote world. -/
def envNoPlace : WorkerEnv := { envBob with placeOk := fun _ _ => false }

/-- `envBob` with the `equip` call rejected by the remote world. -/
def envEquipFail : WorkerEnv := { envBob with equipFails := true }

/-- A unit state in `trap` mode targeting "Bob". -/
def trapState : BotState :=
  { initialBotState with mode := some "trap", target := some "Bob" }

/-- A unit state in `grief` mode targeting "Bob". -/
def griefState : BotState :=
  { initialBotState with mode := some "grief", target := some "Bob" }

theorem mem_intRange {a b x : Int} : x ∈ intRange a b ↔ a ≤ x ∧ x ≤ b := by
  constructor
  · intro h
    unfold intRange at h
    obtain ⟨i, hi, hx⟩ := List.mem_map.mp h
    have hi2 := List.mem_range.mp hi
    omega
  · intro h
    unfold intRange
    exact List.mem_map.mpr ⟨(x - a).toNat, List.mem_range.mpr (by omega), by omega⟩

theorem mem_griefCandidates {prot : List Int} {w : World}
    {botPos targetPos : Vec3i} {scanRadius maxDig : Int} {p : Vec3i} {b : BlockData} :
    (p, b) ∈ griefCandidates prot w botPos targetPos scanRadius maxDig ↔
      (∃ dx dy dz : Int, -scanRadius ≤ dx ∧ dx ≤ scanRadius ∧
        -scanRadius ≤ dy ∧ dy ≤ scanRadius ∧ -scanRadius ≤ dz ∧ dz ≤ scanRadius ∧
        p = targetPos.offset dx dy dz) ∧
      distSq botPos p ≤ maxDig * maxDig ∧ w p = some b ∧
      b.name ≠ "air" ∧ b.btype ∉ prot := by
  unfold griefCandidates
  constructor
  · intro h
    obtain ⟨dx, hdx, h⟩ := List.mem_flatMap.mp h
    obtain ⟨dy, hdy, h⟩ := List.mem_flatMap.mp h
    obtain ⟨dz, hdz, h⟩ := List.mem_flatMap.mp h
    rw [mem_intRange] at hdx hdy hdz
    simp only at h
    split at h
    · exact absurd h (List.not_mem_nil _)
    · split at h
      · exact absurd h (List.not_mem_nil _)
      · split at h
        · exact absurd h (List.not_mem_nil _)
        · split at h
          · exact absurd h (List.not_mem_nil _)
          · rename_i hdist hblock hair hprot
            obtain ⟨rfl, rfl⟩ := Prod.mk.injEq .. ▸ List.mem_singleton.mp h
            refine ⟨⟨dx, dy, dz, hdx.1, hdx.2, hdy.1, hdy.2, hdz.1, hdz.2, rfl⟩,
              by omega, hblock, hair, hprot⟩
  · rintro ⟨⟨dx, dy, dz, h1, h2, h3, h4, h5, h6, rfl⟩, hdist, hblock, hair, hprot⟩
    refine List.mem_flatMap.mpr ⟨dx, mem_intRange.mpr ⟨h1, h2⟩,
      List.mem_flatMap.mpr ⟨dy, mem_intRange.mpr ⟨h3, h4⟩,
      List.mem_flatMap.mpr ⟨dz, mem_intRange.mpr ⟨h5, h6⟩, ?_⟩⟩⟩
    simp only
    rw [if_neg (by omega), hblock]
    dsimp only
    rw [if_neg (by simpa using hair), if_neg (by simpa using hprot)]
    exact List.mem_singleton.mpr rfl

/-- The scan the claim and spec describe, proved of the earlier
revision's live implementation (`griefSelect`,
src/unnamed/part_000:372-386): the candidate list is exactly the cube of
half-width `scanRadius` around the reference position filtered by agent
distance at most `maxDig`, loaded, non-air and unprotected; the selected
survivor is a distance-minimal candidate, and a selected block's material
id is never in the protected set. -/
theorem griefSelect_correct (prot : List Int) (w : World)
    (botPos targetPos : Vec3i) (scanRadius maxDig : Int) :
    (∀ p b, (p, b) ∈ griefCandidates prot w botPos targetPos scanRadius maxDig ↔
      (∃ dx dy dz : Int, -scanRadius ≤ dx ∧ dx ≤ scanRadius ∧
        -scanRadius ≤ dy ∧ dy ≤ scanRadius ∧ -scanRadius ≤ dz ∧ dz ≤ scanRadius ∧
        p = targetPos.offset dx dy dz) ∧
      distSq botPos p ≤ maxDig * maxDig ∧ w p = some b ∧
      b.name ≠ "air" ∧ b.btype ∉ prot) ∧
    (∀ p b, griefSelect prot w botPos targetPos scanRadius maxDig = some (p, b) →
      (p, b) ∈ griefCandidates prot w botPos targetPos scanRadius maxDig ∧
      (∀ q c, (q, c) ∈ griefCandidates prot w botPos targetPos scanRadius maxDig →
        distSq botPos p ≤ distSq botPos q) ∧
      b.btype ∉ prot) ∧
    (griefSelect prot w botPos targetPos scanRadius maxDig = none →
      griefCandidates prot w botPos targetPos scanRadius maxDig = []) := by
  set L := griefCandidates prot w botPos targetPos scanRadius maxDig with hL
  have hperm := List.perm_insertionSort (distLE botPos) L
  have hsorted := List.sorted_insertionSort (distLE botPos) L
  refine ⟨fun p b => mem_griefCandidates, fun p b hsel => ?_, fun hnone => ?_⟩
  · unfold griefSelect at hsel
    rw [← hL] at hsel
    rcases hS : List.insertionSort (distLE botPos) L with _ | ⟨hd, tl⟩
    · rw [hS] at hsel
      exact absurd hsel (by simp)
    · rw [hS] at hsel hperm hsorted
      obtain rfl : hd = (p, b) := by simpa using hsel
      have hmem : (p, b) ∈ L := hperm.mem_iff.mp (List.mem_cons_self _ _)
      have hmin : ∀ q c, (q, c) ∈ L → distSq botPos p ≤ distSq botPos q := by
        intro q c hq
        have : (q, c) ∈ (p, b) :: tl := hperm.mem_iff.mpr hq
        rcases List.mem_cons.mp this with h | h
        · rw [show q = p from congrArg Prod.fst h]
        · exact (List.pairwise_cons.mp hsorted).1 _ h
      exact ⟨hmem, hmin, (mem_griefCandidates.mp hmem).2.2.2.2⟩
  · unfold griefSelect at hnone
    rw [← hL] at hnone
    have : List.insertionSort (distLE botPos) L = [] := List.head?_eq_none_iff.mp hnone
    rw [this] at hperm
    exact hperm.symm.eq_nil

/-- C1 (code bug): evaluated at a grief tick with the target visible at
the origin and a diggable unprotected stone block in range, the
depster.js revision performs no scan at all — `griefLogic` throws
`ReferenceError` at its first loop header (the undefined identifier
`scanRadius`), the tick's `catch` turns it into a single error event,
and no look or dig is attempted.  The second conjunct evaluates the
claim's described behavior on the same world through the earlier
revision's live scan: it selects the nearest unprotected block, as the
claim says a grief tick should (`griefSelect_correct` proves this in
general). -/
theorem c1_grief_reference_error :
    physicsTick cfg0 envBob w1 griefState =
      ({ griefState with sprint := true, goal := some (Goal.goalBlock ⟨0, 0, 0⟩) },
       w1, [WEffect.errorMsg "ReferenceError: scanRadius is not defined"]) ∧
    griefSelect [5] w1 ⟨0, 0, 0⟩ ⟨0, 0, 0⟩ 1 2 =
      some (⟨1, 0, 0⟩, ⟨"stone", 1, "block"⟩) ∧
    (∀ p, WEffect.dig p ∉ (physicsTick cfg0 envBob w1 griefState).2.2) ∧
    (∀ p, WEffect.lookAt p ∉ (physicsTick cfg0 envBob w1 griefState).2.2) := by
  refine ⟨rfl, by decide, ?_, ?_⟩
  · intro p hp
    exact WEffect.noConfusion (List.mem_singleton.mp hp)
  · intro p hp
    exact WEffect.noConfusion (List.mem_singleton.mp hp)

/-- C10: the precomputed trap offset set holds exactly 33 distinct relative
positions: 8 floor offsets at `y = -1` forming a ring that excludes the
cell directly beneath the origin, 16 wall offsets at `y ∈ {0, 1}`
excluding the origin column, and 9 roof offsets at `y = 2`; the origin
cells `(0,0,0)` and `(0,1,0)` occupied by the target are not in the set. -/
theorem c10_trapOffsets_spec :
    trapOffsets.length = 33 ∧
    (trapOffsets.map TrapOffset.pos).Nodup ∧
    (trapOffsets.filter fun t => t.role = TrapRole.floor).length = 8 ∧
    (trapOffsets.filter fun t => t.role = TrapRole.wall).length = 16 ∧
    (trapOffsets.filter fun t => t.role = TrapRole.roof).length = 9 ∧
    (∀ t ∈ trapOffsets, t.role = TrapRole.floor ↔
      (t.pos.y = -1 ∧ -1 ≤ t.pos.x ∧ t.pos.x ≤ 1 ∧ -1 ≤ t.pos.z ∧ t.pos.z ≤ 1 ∧
        ¬(t.pos.x = 0 ∧ t.pos.z = 0))) ∧
    (∀ x ∈ intRange (-1) 1, ∀ z ∈ intRange (-1) 1, ¬(x = 0 ∧ z = 0) →
      (⟨⟨x, -1, z⟩, TrapRole.floor⟩ : TrapOffset) ∈ trapOffsets) ∧
    (∀ t ∈ trapOffsets, t.role = TrapRole.wall ↔
      ((t.pos.y = 0 ∨ t.pos.y = 1) ∧ -1 ≤ t.pos.x ∧ t.pos.x ≤ 1 ∧
        -1 ≤ t.pos.z ∧ t.pos.z ≤ 1 ∧ ¬(t.pos.x = 0 ∧ t.pos.z = 0))) ∧
    (∀ y ∈ intRange 0 1, ∀ x ∈ intRange (-1) 1, ∀ z ∈ intRange (-1) 1,
      ¬(x = 0 ∧ z = 0) → (⟨⟨x, y, z⟩, TrapRole.wall⟩ : TrapOffset) ∈ trapOffsets) ∧
    (∀ t ∈ trapOffsets, t.role = TrapRole.roof ↔
      (t.pos.y = 2 ∧ -1 ≤ t.pos.x ∧ t.pos.x ≤ 1 ∧ -1 ≤ t.pos.z ∧ t.pos.z ≤ 1)) ∧
    (∀ x ∈ intRange (-1) 1, ∀ z ∈ intRange (-1) 1,
      (⟨⟨x, 2, z⟩, TrapRole.roof⟩ : TrapOffset) ∈ trapOffsets) ∧
    (⟨0, 0, 0⟩ : Vec3i) ∉ trapOffsets.map TrapOffset.pos ∧
    (⟨0, 1, 0⟩ : Vec3i) ∉ trapOffsets.map TrapOffset.pos := by
  decide

theorem c10_trapOffsets_spec_witness :
    (⟨⟨-1, -1, -1⟩, TrapRole.floor⟩ : TrapOffset) ∈ trapOffsets :=
  c10_trapOffsets_spec.2.2.2.2.2.2.1 (-1) (by decide) (-1) (by decide) (by decide)

theorem find_key_eq {m : WorkerMap} {k : String} {kv : String × WorkerEntry}
    (h : (m.find? fun kv => kv.1 = k) = some kv) : kv.1 = k := by
  have := List.find?_some h
  simpa using this

theorem mapGet_eq_some {m : WorkerMap} {k : String} {e : WorkerEntry}
    (h : mapGet m k = some e) : (k, e) ∈ m := by
  unfold mapGet at h
  obtain ⟨kv, hfind, hsnd⟩ := Option.map_eq_some'.mp h
  have hk := find_key_eq hfind
  have hmem := List.mem_of_find?_eq_some hfind
  have : kv = (k, e) := by
    cases kv
    simp_all
  rwa [this] at hmem

theorem mapGet_mapDelete_self (m : WorkerMap) (k : String) :
    mapGet (mapDelete m k) k = none := by
  unfold mapGet mapDelete
  rw [Option.map_eq_none', List.find?_eq_none]
  intro kv hkv
  have := (List.mem_filter.mp hkv).2
  simpa using this

theorem find?_subst_self {m : WorkerMap} {k : String} (v : WorkerEntry)
    (h : (m.find? fun kv => kv.1 = k).isSome) :
    ((m.map fun kv => if kv.1 = k then (k, v) else kv).find? fun kv => kv.1 = k) =
      some (k, v) := by
  induction m with
  | nil => simp at h
  | cons hd tl ih =>
    by_cases hhd : hd.1 = k
    · rw [List.map_cons, if_pos hhd]
      exact List.find?_cons_of_pos _ (by simp)
    · rw [List.map_cons, if_neg hhd, List.find?_cons_of_neg _ (by simpa using hhd)]
      apply ih
      rwa [List.find?_cons_of_neg _ (by simpa using hhd)] at h

theorem find?_subst_ne {m : WorkerMap} {k k2 : String} (v : WorkerEntry)
    (hne : ¬k2 = k) :
    ((m.map fun kv => if kv.1 = k then (k, v) else kv).find? fun kv => kv.1 = k2) =
      m.find? fun kv => kv.1 = k2 := by
  have hne2 : ¬k = k2 := fun h => hne h.symm
  induction m with
  | nil => rfl
  | cons hd tl ih =>
    by_cases hhd : hd.1 = k2
    · have hhdk : ¬hd.1 = k := by
        rw [hhd]
        exact hne
      rw [List.map_cons, if_neg hhdk, List.find?_cons_of_pos _ (by simpa using hhd),
        List.find?_cons_of_pos _ (by simpa using hhd)]
    · rw [List.map_cons]
      by_cases hhdk : hd.1 = k
      · rw [if_pos hhdk, List.find?_cons_of_neg _ (by simpa using hne2),
          List.find?_cons_of_neg _ (by simpa using hhd)]
        exact ih
      · rw [if_neg hhdk, List.find?_cons_of_neg _ (by simpa using hhd),
          List.find?_cons_of_neg _ (by simpa using hhd)]
        exact ih

theorem mapGet_mapSet_self (m : WorkerMap) (k : String) (v : WorkerEntry) :
    mapGet (mapSet m k v) k = some v := by
  unfold mapGet mapSet
  split
  · rename_i hsome
    rw [find?_subst_self v hsome]
    rfl
  · rename_i hnone
    rw [List.find?_append, Option.not_isSome_iff_eq_none.mp hnone]
    simp

theorem mapGet_mapSet_ne (m : WorkerMap) {k k2 : String} (v : WorkerEntry)
    (hne : ¬k2 = k) : mapGet (mapSet m k v) k2 = mapGet m k2 := by
  unfold mapGet mapSet
  split
  · rw [find?_subst_ne v hne]
  · rw [List.find?_append]
    have hne2 : ¬k = k2 := fun h => hne h.symm
    have h2 : (List.find? (fun kv => kv.1 = k2) [(k, v)]) = none := by
      simp [hne2]
    rw [h2, Option.or_none]

theorem mem_mapSet {m : WorkerMap} {k : String} {v : WorkerEntry}
    {kv : String × WorkerEntry} (h : kv ∈ mapSet m k v) :
    kv = (k, v) ∨ (kv ∈ m ∧ ¬kv.1 = k) := by
  unfold mapSet at h
  split at h
  · obtain ⟨kv0, hkv0, heq⟩ := List.mem_map.mp h
    by_cases hk : kv0.1 = k
    · rw [if_pos hk] at heq
      exact Or.inl heq.symm
    · rw [if_neg hk] at heq
      exact Or.inr ⟨heq ▸ hkv0, heq ▸ hk⟩
  · rename_i hnone
    rcases List.mem_append.mp h with h2 | h2
    · refine Or.inr ⟨h2, fun hk => ?_⟩
      rw [Option.not_isSome_iff_eq_none, List.find?_eq_none] at hnone
      exact absurd (by simpa using hk) (by simpa using hnone kv h2)
    · exact Or.inl (by simpa using h2)

theorem mem_mapDelete {m : WorkerMap} {k : String} {kv : String × WorkerEntry}
    (h : kv ∈ mapDelete m k) : kv ∈ m ∧ ¬kv.1 = k := by
  have := List.mem_filter.mp h
  exact ⟨this.1, by simpa using this.2⟩

theorem filter_subst (m : WorkerMap) (k : String) (v : WorkerEntry) :
    ((m.map fun kv => if kv.1 = k then (k, v) else kv).filter fun kv => ¬kv.1 = k) =
      m.filter fun kv => ¬kv.1 = k := by
  induction m with
  | nil => rfl
  | cons hd tl ih =>
    by_cases hhd : hd.1 = k
    · rw [List.map_cons, if_pos hhd, List.filter_cons_of_neg (by simp),
        List.filter_cons_of_neg (by simpa using hhd)]
      exact ih
    · rw [List.map_cons, if_neg hhd, List.filter_cons_of_pos (by simpa using hhd),
        List.filter_cons_of_pos (by simpa using hhd), ih]

theorem mapDelete_mapSet (m : WorkerMap) (k : String) (v : WorkerEntry) :
    mapDelete (mapSet m k v) k = mapDelete m k := by
  unfold mapSet mapDelete
  split
  · exact filter_subst m k v
  · rw [List.filter_append]
    simp

/-- C2 counterexample: the claim as stated fails at a concrete input where
the final handle equals the initial handle.  For the authentication-flow
unit registered under H = "a", an `authenticated` message carrying
F = "a" leaves the identity map still containing the key H (the
`delete` / `set` pair re-inserts the same key), while the claim requires
the map to no longer contain H. -/
theorem c2_authRekey_claim_false :
    mapGet (handleAuthenticated [("a", ⟨0, none⟩)] "a" "a" true).1 "a" ≠ none := by
  decide

/-- C2 (amended): provided the final handle F differs from the initial
handle H, for every authentication-flow unit registered in the identity
map under H and under no other key, the `authenticated` handler leaves
the map containing F mapped to the same execution unit (with the final
handle recorded), no longer containing H, and holding exactly one live
entry for that unit — the key F; the swap is the single atomic map
transformation performed by the handler, so no intermediate map state is
observable. -/
theorem c2_authRekey_spec (m : WorkerMap) (H F : String) (e : WorkerEntry)
    (hget : mapGet m H = some e)
    (huniq : ∀ kv ∈ m, kv.2.worker = e.worker → kv.1 = H)
    (hne : ¬F = H) :
    mapGet (handleAuthenticated m H F true).1 F = some ⟨e.worker, some F⟩ ∧
    mapGet (handleAuthenticated m H F true).1 H = none ∧
    (F, (⟨e.worker, some F⟩ : WorkerEntry)) ∈ (handleAuthenticated m H F true).1 ∧
    (∀ kv ∈ (handleAuthenticated m H F true).1, kv.2.worker = e.worker → kv.1 = F) := by
  unfold handleAuthenticated
  rw [hget]
  dsimp only
  rw [if_pos rfl, mapDelete_mapSet]
  have hne2 : ¬H = F := fun h => hne h.symm
  refine ⟨mapGet_mapSet_self (mapDelete m H) F _, ?_,
    mapGet_eq_some (mapGet_mapSet_self (mapDelete m H) F _), ?_⟩
  · rw [mapGet_mapSet_ne (mapDelete m H) _ hne2, mapGet_mapDelete_self]
  · intro kv hkv hw
    rcases mem_mapSet hkv with rfl | ⟨hmem, _⟩
    · rfl
    · obtain ⟨hmem2, hkeyH⟩ := mem_mapDelete hmem
      exact absurd (huniq kv hmem2 hw) hkeyH

theorem c2_authRekey_spec_witness :
    mapGet (handleAuthenticated [("a", ⟨3, none⟩)] "a" "b" true).1 "b" =
      some ⟨3, some "b"⟩ :=
  (c2_authRekey_spec [("a", ⟨3, none⟩)] "a" "b" ⟨3, none⟩ (by decide)
    (by decide) (by decide)).1

/-- C3: a `clearmap` broadcast over the N live units sends, in index order
over the identity map, exactly one message per unit; the i-th message goes
to the i-th unit and carries the angle `2πi/N` and no other; the assigned
angles are pairwise distinct and their list, in unit-index order, is
exactly `[2πi/N : i = 0..N-1]`; every other command is delivered, merged
with the command name, to every live unit. -/
theorem c3_broadcast_spec (m : WorkerMap) (data : CmdMsg) :
    (data.command = "clearmap" →
      ((sendCommand m data).map Prod.fst = m.map fun kv => kv.2.worker) ∧
      ((sendCommand m data).map fun x => x.2.angle) =
        ((List.range m.length).map fun i : Nat =>
          some (2 * Real.pi * (i : ℝ) / (m.length : ℝ))) ∧
      ((List.range m.length).map fun i : Nat =>
        (2 * Real.pi * (i : ℝ) / (m.length : ℝ))).Nodup ∧
      ((sendCommand m data).map fun x => x.2.command) =
        (List.range m.length).map fun _ => "clearmap") ∧
    (¬data.command = "clearmap" →
      sendCommand m data = m.map fun kv => (kv.2.worker, data)) := by
  constructor
  · intro hcmd
    unfold sendCommand
    rw [if_pos hcmd]
    dsimp only
    refine ⟨?_, ?_, ?_, ?_⟩
    · rw [List.map_map]
      have : (Prod.fst ∘ fun iw : Nat × Nat =>
          ((iw.2 : Nat), (⟨"clearmap", none,
            some (((iw.1 : ℝ) / ((m.map fun kv => kv.2.worker).length : ℝ)) * (2 * Real.pi)),
            none⟩ : CmdMsg))) = Prod.snd := rfl
      rw [this, List.enum_map_snd]
    · rw [List.map_map]
      have hlen : (m.map fun kv => kv.2.worker).length = m.length := List.length_map _ _
      have : ((fun x : Nat × CmdMsg => x.2.angle) ∘ fun iw : Nat × Nat =>
          ((iw.2 : Nat), (⟨"clearmap", none,
            some (((iw.1 : ℝ) / ((m.map fun kv => kv.2.worker).length : ℝ)) * (2 * Real.pi)),
            none⟩ : CmdMsg))) = (fun i : Nat =>
          some (2 * Real.pi * (i : ℝ) / (m.length : ℝ))) ∘ Prod.fst := by
        funext iw
        simp only [Function.comp_apply, hlen]
        congr 1
        ring
      rw [this, ← List.map_map, List.enum_map_fst, hlen]
    · refine List.Nodup.map_on ?_ (List.nodup_range _)
      intro i hi j hj hij
      rw [List.mem_range] at hi hj
      have hN : ((m.length : ℝ)) ≠ 0 := Nat.cast_ne_zero.mpr (by omega)
      have hc : ((2 * Real.pi) / (m.length : ℝ)) ≠ 0 :=
        div_ne_zero (mul_ne_zero two_ne_zero Real.pi_ne_zero) hN
      have key : ((2 * Real.pi) / (m.length : ℝ)) * (i : ℝ) =
          ((2 * Real.pi) / (m.length : ℝ)) * (j : ℝ) := by
        rw [div_mul_eq_mul_div, div_mul_eq_mul_div]
        exact hij
      exact_mod_cast mul_left_cancel₀ hc key
    · rw [List.map_map]
      have hlen : (m.map fun kv => kv.2.worker).length = m.length := List.length_map _ _
      have : ((fun x : Nat × CmdMsg => x.2.command) ∘ fun iw : Nat × Nat =>
          ((iw.2 : Nat), (⟨"clearmap", none,
            some (((iw.1 : ℝ) / ((m.map fun kv => kv.2.worker).length : ℝ)) * (2 * Real.pi)),
            none⟩ : CmdMsg))) = (fun _ : Nat => "clearmap") ∘ Prod.fst := rfl
      rw [this, ← List.map_map, List.enum_map_fst, hlen]
  · intro hcmd
    unfold sendCommand
    rw [if_neg hcmd]

theorem c3_broadcast_spec_witness :
    (sendCommand [("a", ⟨0, none⟩), ("b", ⟨1, none⟩)]
        ⟨"clearmap", none, none, none⟩).map Prod.fst = [0, 1] := by
  have h := (c3_broadcast_spec [("a", ⟨0, none⟩), ("b", ⟨1, none⟩)]
    ⟨"clearmap", none, none, none⟩).1 rfl
  rw [h.1]
  decide

/-- C8: when the supervisor observes a unit exit, the unit's identity-map
entry is removed (no entry for that unit remains, given it was registered
under exactly one key); the dashboard is told the agent went offline under
the final handle when one is recorded, else the registered handle; a
respawn of the registered handle is scheduled after exactly 5000 ms if and
only if the exit code is nonzero and the unit is not an
authentication-flow unit — an authentication-flow unit is never
respawned.  The final conjunct shows the registered handle of a
non-authentication unit is its initial spawn handle: a non-auth
`authenticated` event never changes the key set, and `spawnWorkerFor`
registers a fresh unit under its spawn handle. -/
theorem c8_onWorkerExit_spec (m : WorkerMap) (wkr : Nat) (code : Int)
    (isAuthWorker : Bool) (key : String) (info : WorkerEntry)
    (hfind : (m.find? fun kv => kv.2.worker = wkr) = some (key, info))
    (huniq : ∀ kv ∈ m, kv.2.worker = wkr → kv.1 = key) :
    (∀ kv ∈ (onWorkerExit m wkr code isAuthWorker).1, ¬kv.2.worker = wkr) ∧
    mapGet (onWorkerExit m wkr code isAuthWorker).1 key = none ∧
    (onWorkerExit m wkr code isAuthWorker).2.1 =
      [SupEffect.botOffline (info.finalUsername.getD key)] ∧
    (code ≠ 0 → isAuthWorker = false →
      (onWorkerExit m wkr code isAuthWorker).2.2 = some ⟨5000, key⟩) ∧
    ((code = 0 ∨ isAuthWorker = true) →
      (onWorkerExit m wkr code isAuthWorker).2.2 = none) ∧
    (∀ (m2 : WorkerMap) (h f : String),
      (handleAuthenticated m2 h f false).1.map Prod.fst = m2.map Prod.fst) ∧
    (∀ (m2 : WorkerMap) (u : String) (w2 : Nat), mapGet m2 u = none →
      mapGet (spawnWorkerFor m2 u w2) u = some ⟨w2, none⟩) := by
  unfold onWorkerExit
  rw [hfind]
  dsimp only
  refine ⟨?_, mapGet_mapDelete_self m key, rfl, ?_, ?_, ?_, ?_⟩
  · intro kv hkv hw
    obtain ⟨hmem, hkey⟩ := mem_mapDelete hkv
    exact hkey (huniq kv hmem hw)
  · intro hc ha
    rw [if_pos ⟨hc, ha⟩]
  · intro h
    rw [if_neg]
    rintro ⟨hc, ha⟩
    rcases h with h | h
    · exact hc h
    · rw [h] at ha
      cases ha
  · intro m2 h f
    unfold handleAuthenticated
    dsimp only
    cases hget : mapGet m2 h with
    | none => rfl
    | some e =>
      dsimp only
      rw [if_neg (by simp)]
      unfold mapSet
      have hsome : (m2.find? fun kv => kv.1 = h).isSome := by
        unfold mapGet at hget
        rcases hfind2 : m2.find? fun kv => kv.1 = h with _ | kv
        · rw [hfind2] at hget
          cases hget
        · simp [hfind2]
      rw [if_pos hsome, List.map_map]
      apply List.map_congr_left
      intro kv _
      by_cases hk : kv.1 = h
      · simp [hk]
      · simp [hk]
  · intro m2 u w2 hnone
    unfold spawnWorkerFor
    rw [if_neg (by simp [hnone]), ]
    unfold mapGet
    rw [List.find?_append]
    have h1 : (m2.find? fun kv => kv.1 = u) = none := by
      unfold mapGet at hnone
      exact Option.map_eq_none'.mp hnone
    rw [h1]
    simp

theorem c8_onWorkerExit_spec_witness :
    (onWorkerExit [("alice", ⟨7, some "AliceFinal"⟩)] 7 1 false).2.2 =
      some ⟨5000, "alice"⟩ :=
  (c8_onWorkerExit_spec [("alice", ⟨7, some "AliceFinal"⟩)] 7 1 false "alice"
    ⟨7, some "AliceFinal"⟩ (by decide) (by decide)).2.2.2.1 (by decide) rfl

/-- C7: a `follow`, `grief` or `trap` command whose named target is
missing, empty, or not currently visible to the unit is rejected with
exactly one log line, and the entire behavior state — mode, target,
building guard, sprint and navigation goal — is unchanged. -/
theorem c7_commandReject_spec (env : WorkerEnv) (s : BotState) (msg : CmdMsg)
    (hcmd : msg.command = "follow" ∨ msg.command = "grief" ∨ msg.command = "trap")
    (hmiss : msg.target = none ∨ msg.target = some "" ∨
      ∃ n, msg.target = some n ∧ env.players n = none) :
    ∃ t, handleCommand env s msg = (s, [WEffect.log t]) := by
  unfold handleCommand
  rw [if_pos hcmd]
  rcases hmiss with h | h | ⟨n, hn, hnone⟩
  · rw [h]
    exact ⟨_, rfl⟩
  · rw [h]
    dsimp only
    rw [if_pos rfl]
    exact ⟨_, rfl⟩
  · rw [hn]
    dsimp only
    by_cases hempty : n = ""
    · rw [if_pos hempty]
      exact ⟨_, rfl⟩
    · rw [if_neg hempty, hnone]
      exact ⟨_, rfl⟩

theorem c7_commandReject_spec_witness :
    ∃ t, handleCommand env0 initialBotState ⟨"follow", some "Bob", none, none⟩ =
      (initialBotState, [WEffect.log t]) :=
  c7_commandReject_spec env0 initialBotState ⟨"follow", some "Bob", none, none⟩
    (Or.inl rfl) (Or.inr (Or.inr ⟨"Bob", rfl, rfl⟩))

theorem griefLogicP0_no_dig_of_rate (cfg : SharedConfig) (env : WorkerEnv)
    (w : World) (s : BotState) (tp : Vec3i)
    (h : env.now - s.lastDig < cfg.clickDelay) :
    (∀ p, WEffect.dig p ∉ (griefLogicP0 cfg env w s tp).2.2) ∧
    (griefLogicP0 cfg env w s tp).1.lastDig = s.lastDig := by
  unfold griefLogicP0
  cases hsel : griefSelect cfg.protectedIds w env.botPos tp cfg.scanRadius cfg.maxDig with
  | none =>
    exact ⟨fun p hp => List.not_mem_nil _ hp, rfl⟩
  | some pb =>
    cases pb with
    | mk p b =>
      dsimp only
      rw [if_pos h]
      exact ⟨fun q hq => List.not_mem_nil _ hq, rfl⟩

theorem griefLogicP0_dig_lastDig (cfg : SharedConfig) (env : WorkerEnv)
    (w : World) (s : BotState) (tp : Vec3i) (p : Vec3i)
    (h : WEffect.dig p ∈ (griefLogicP0 cfg env w s tp).2.2) :
    (griefLogicP0 cfg env w s tp).1.lastDig = env.now ∧
    ¬(env.now - s.lastDig < cfg.clickDelay) := by
  unfold griefLogicP0 at h ⊢
  cases hsel : griefSelect cfg.protectedIds w env.botPos tp cfg.scanRadius cfg.maxDig with
  | none =>
    rw [hsel] at h
    exact absurd h (List.not_mem_nil _)
  | some pb =>
    cases pb with
    | mk q b =>
      rw [hsel] at h
      dsimp only at h ⊢
      by_cases hrate : env.now - s.lastDig < cfg.clickDelay
      · rw [if_pos hrate] at h
        exact absurd h (List.not_mem_nil _)
      · rw [if_neg hrate] at h ⊢
        by_cases hlook : env.lookFails = true
        · rw [if_pos hlook] at h
          exact absurd h (List.not_mem_nil _)
        · rw [if_neg hlook]
          exact ⟨rfl, hrate⟩

/-- C4: two consecutive scan-and-act calls on one unit separated by
strictly less than `1000/cps` time units take at most one destructive
action between them.  Proved of the earlier revision's live
implementation (`griefLogicP0`, src/unnamed/part_000:388-394, whose gate
reads `cfg.clickDelay = 1000/cps`): if the first call digs it stamps
`lastDig`, so the second skips; and a call whose interval has not elapsed
takes no action and leaves the timestamp unchanged.  In the depster.js
revision the corresponding lines 346-350 are unreachable — `griefLogic`
throws at line 334 before the gate, see its doc comment — so no call
ever takes any action there, and the at-most-one bound holds for that
revision too (last conjunct). -/
theorem c4_rate_limit (cfg : SharedConfig) (env1 env2 : WorkerEnv)
    (wa wb : World) (s : BotState) (tp1 tp2 : Vec3i) (cps : ℚ)
    (hcd : cfg.clickDelay = 1000 / cps)
    (hsep : env2.now - env1.now < 1000 / cps) :
    (¬((∃ p, WEffect.dig p ∈ (griefLogicP0 cfg env1 wa s tp1).2.2) ∧
       (∃ p, WEffect.dig p ∈
         (griefLogicP0 cfg env2 wb (griefLogicP0 cfg env1 wa s tp1).1 tp2).2.2))) ∧
    (env1.now - s.lastDig < cfg.clickDelay →
      ((∀ p, WEffect.dig p ∉ (griefLogicP0 cfg env1 wa s tp1).2.2) ∧
       (griefLogicP0 cfg env1 wa s tp1).1.lastDig = s.lastDig)) ∧
    (∀ (wd : World) (sd : BotState) (tpd : Vec3i) (p : Vec3i),
      WEffect.dig p ∉ (griefLogic wd sd tpd).2.2.1) := by
  refine ⟨?_, griefLogicP0_no_dig_of_rate cfg env1 wa s tp1, ?_⟩
  · rintro ⟨⟨p1, h1⟩, ⟨p2, h2⟩⟩
    have ha := griefLogicP0_dig_lastDig cfg env1 wa s tp1 p1 h1
    have hb := griefLogicP0_dig_lastDig cfg env2 wb
      (griefLogicP0 cfg env1 wa s tp1).1 tp2 p2 h2
    rw [ha.1] at hb
    exact hb.2 (by rw [hcd]; exact hsep)
  · intro wd sd tpd p hp
    exact List.not_mem_nil _ hp

theorem c4_rate_limit_witness :
    (∀ p, WEffect.dig p ∉ (griefLogicP0 cfg0 env0 w0 initialBotState ⟨0, 0, 0⟩).2.2) ∧
    (griefLogicP0 cfg0 env0 w0 initialBotState ⟨0, 0, 0⟩).1.lastDig =
      initialBotState.lastDig :=
  (c4_rate_limit cfg0 env0 env0 w0 w0 initialBotState ⟨0, 0, 0⟩ ⟨0, 0, 0⟩ 20 rfl
    (by show (0 : ℚ) - 0 < 1000 / 20; norm_num)).2.1
    (by show (0 : ℚ) - 0 < 1000 / 20; norm_num)

/-- C6 counterexample: the claim's quantification over all four modes
fails for `clearmap`.  A unit in `clearmap` mode has no stored target
(the accepted clearmap command resets `target` to `null`), so its target
is unresolvable on every tick, yet the tick neither transitions to idle
nor reports "Idle": the mode stays `clearmap`. -/
theorem c6_tick_claim_false_on_clearmap :
    (physicsTick cfg0 env0 w0
        { initialBotState with mode := some "clearmap" }).1.mode =
      some "clearmap" := rfl

/-- C6 (amended): for every tick of a unit in one of the target-directed
modes `follow`, `grief`, `trap`, the handler resolves the stored target
through `bot.players` to a live entity each tick, and whenever none
resolves the unit transitions to idle (mode `none`) and reports status
"Idle"; a tick with mode `none` is a no-op with no effects.  The
`clearmap` mode stores no target and proceeds regardless (see the
counterexample). -/
theorem c6_tick_idle_spec (cfg : SharedConfig) (env : WorkerEnv) (w : World)
    (s : BotState) :
    (s.mode = none → physicsTick cfg env w s = (s, w, [])) ∧
    (∀ m, s.mode = some m → (m = "follow" ∨ m = "grief" ∨ m = "trap") →
      (match s.target with
        | some targetName => env.players targetName
        | none => none).bind PlayerRec.entity = none →
      physicsTick cfg env w s = ({ s with mode := none }, w, [WEffect.status "Idle"])) := by
  constructor
  · intro h
    unfold physicsTick physicsTickBody
    rw [h]
  · intro m hm hmode hres
    unfold physicsTick physicsTickBody
    rw [hm]
    dsimp only
    rcases hmode with rfl | rfl | rfl
    · rw [if_pos rfl, hres]
    · rw [if_neg (by decide), if_pos rfl, hres]
    · rw [if_neg (by decide), if_neg (by decide), if_pos rfl, hres]

theorem c6_tick_idle_spec_witness :
    physicsTick cfg0 env0 w0
        { initialBotState with mode := some "follow", target := some "Bob" } =
      ({ initialBotState with mode := none, target := some "Bob" }, w0,
        [WEffect.status "Idle"]) :=
  (c6_tick_idle_spec cfg0 env0 w0
      { initialBotState with mode := some "follow", target := some "Bob" }).2
    "follow" rfl (Or.inl rfl) rfl

/-- C9: no error raised inside the tick body escapes the tick boundary.
Quantified over every environment — including those where the remote
`lookAt` or `equip` calls reject, the cases in which the body's `thrown`
component is set — the wrapped handler returns the state and world the
body produced, and an exception escaping the body surfaces as exactly one
`error` event appended to the tick's effects; when nothing escapes, the
effects are the body's alone. -/
theorem c9_tick_fault_isolated (cfg : SharedConfig) (env : WorkerEnv) (w : World)
    (s : BotState) :
    (physicsTick cfg env w s).1 = (physicsTickBody cfg env w s).1 ∧
    (physicsTick cfg env w s).2.1 = (physicsTickBody cfg env w s).2.1 ∧
    (∀ e, (physicsTickBody cfg env w s).2.2.2 = some e →
      (physicsTick cfg env w s).2.2 =
        (physicsTickBody cfg env w s).2.2.1 ++ [WEffect.errorMsg e]) ∧
    ((physicsTickBody cfg env w s).2.2.2 = none →
      (physicsTick cfg env w s).2.2 = (physicsTickBody cfg env w s).2.2.1) := by
  unfold physicsTick
  rcases hbody : physicsTickBody cfg env w s with ⟨s2, w2, effs, th⟩
  cases th with
  | none => exact ⟨rfl, rfl, fun e he => Option.noConfusion he, fun _ => rfl⟩
  | some e0 =>
    refine ⟨rfl, rfl, fun e he => ?_, fun he => Option.noConfusion he⟩
    obtain rfl : e0 = e := Option.some.inj he
    rfl

theorem c9_tick_fault_isolated_witness :
    (physicsTick cfg0 envEquipFail w0 trapState).2.2 =
      (physicsTickBody cfg0 envEquipFail w0 trapState).2.2.1 ++
        [WEffect.errorMsg "equip rejected"] :=
  (c9_tick_fault_isolated cfg0 envEquipFail w0 trapState).2.2.1
    "equip rejected" rfl

theorem not_solid_and_empty {w : World} {p : Vec3i} :
    ¬(solidAt w p = true ∧ emptyAt w p = true) := by
  rintro ⟨hs, he⟩
  unfold solidAt at hs
  unfold emptyAt at he
  cases hwp : w p with
  | none =>
    rw [hwp] at hs
    cases hs
  | some b =>
    rw [hwp] at hs he
    simp only [decide_eq_true_eq] at hs he
    exact absurd (hs.symm.trans he) (by decide)

theorem solidAt_ne_emptyAt {w : World} {p : Vec3i} (h : solidAt w p = true) :
    emptyAt w p = false := by
  cases hev : emptyAt w p with
  | false => rfl
  | true => exact absurd ⟨h, hev⟩ not_solid_and_empty

theorem solidAt_placeTrapBlock (env : WorkerEnv) (item : String) {w : World}
    {p : Vec3i} (q : Vec3i) (h : solidAt w p = true) :
    solidAt (placeTrapBlock env item w q) p = true := by
  unfold placeTrapBlock
  by_cases hq : emptyAt w q = true
  · rw [if_pos hq]
    cases hfind : adjacentOffsets.find? fun adjOffset =>
        solidAt w (q.plus adjOffset) && env.placeOk (q.plus adjOffset) q with
    | none => exact h
    | some adj =>
      by_cases hpq : p = q
      · exact absurd ⟨hpq ▸ h, hq⟩ not_solid_and_empty
      · unfold solidAt worldSet
        dsimp only
        rw [if_neg hpq]
        exact h
  · rw [if_neg hq]
    exact h

theorem solidAt_foldl (env : WorkerEnv) (item : String) (ps : List Vec3i)
    {w : World} {p : Vec3i} (h : solidAt w p = true) :
    solidAt (ps.foldl (placeTrapBlock env item) w) p = true := by
  induction ps generalizing w with
  | nil => exact h
  | cons q qs ih => exact ih (solidAt_placeTrapBlock env item q h)

theorem placeTrapBlock_fills (env : WorkerEnv) (item : String) {w : World}
    {q : Vec3i} (hempty : emptyAt w q = true)
    (hadj : ∃ adj ∈ adjacentOffsets, solidAt w (q.plus adj) = true)
    (hplace : ∀ a b : Vec3i, env.placeOk a b = true) :
    solidAt (placeTrapBlock env item w q) q = true := by
  unfold placeTrapBlock
  rw [if_pos hempty]
  have hfind : (adjacentOffsets.find? fun adjOffset =>
      solidAt w (q.plus adjOffset) && env.placeOk (q.plus adjOffset) q).isSome := by
    rw [List.find?_isSome]
    obtain ⟨adj, hmem, hsolid⟩ := hadj
    refine ⟨adj, hmem, ?_⟩
    rw [hsolid, hplace]
    rfl
  obtain ⟨adj, hadj2⟩ := Option.isSome_iff_exists.mp hfind
  rw [hadj2]
  simp [solidAt, worldSet, placedBlock]

/-- C5 counterexample: with every placement rejected by the remote world,
a Structure Planner run meeting all of the claim's stated conditions
(fully solid platform beneath the target, re-entry guard clear, agent
within close range, building material acquired) leaves the trap offset at
index 8 — the wall offset (-1,0,-1), empty at its turn and with a solid
axis-adjacent neighbor beneath it — still empty afterwards, so the claim
as stated is false: it asserts such a position is no longer empty while
also allowing individual placements to fail. -/
theorem c5_claim_false_when_placement_fails :
    emptyAt (((trapOffsets.take 8).map fun t => Vec3i.plus ⟨0, 0, 0⟩ t.pos).foldl
        (placeTrapBlock envNoPlace "dirt") wPlat)
      (Vec3i.plus ⟨0, 0, 0⟩ ⟨-1, 0, -1⟩) = true ∧
    (∃ adj ∈ adjacentOffsets,
      solidAt (((trapOffsets.take 8).map fun t => Vec3i.plus ⟨0, 0, 0⟩ t.pos).foldl
          (placeTrapBlock envNoPlace "dirt") wPlat)
        ((Vec3i.plus ⟨0, 0, 0⟩ ⟨-1, 0, -1⟩).plus adj) = true) ∧
    (trapOffsets.get ⟨8, by decide⟩).pos = ⟨-1, 0, -1⟩ ∧
    trapState.isTrapping = false ∧
    ¬(81 < 4 * distSq envNoPlace.botPos ⟨0, 0, 0⟩) ∧
    (getBlockInHand envNoPlace cfg0.trapBlock).1 = some () ∧
    emptyAt (trapLogic cfg0 envNoPlace wPlat trapState ⟨0, 0, 0⟩).2.1
      (Vec3i.plus ⟨0, 0, 0⟩ ⟨-1, 0, -1⟩) = true := by
  decide

/-- C5 (amended): for a target position with a fully solid 3×3 platform
beneath it, one complete Structure Planner run — re-entry guard clear,
agent within close range, building material acquired, equip accepted —
in an environment where every attempted placement succeeds leaves every
trap offset position that was empty at its turn and had at least one
solid axis-adjacent neighbor at its turn no longer empty.  The run's
final world is the fold of the per-offset step over the entire offset
list (first conjunct), so the planner visits every offset regardless of
the outcomes at earlier offsets. -/
theorem c5_trap_invariant (cfg : SharedConfig) (env : WorkerEnv) (w : World)
    (s : BotState) (playerPos : Vec3i)
    (hplace : ∀ a b : Vec3i, env.placeOk a b = true)
    (hguard : s.isTrapping = false)
    (hclose : ¬(81 < 4 * distSq env.botPos playerPos))
    (hitem : (getBlockInHand env cfg.trapBlock).1 = some ())
    (hequip : env.equipFails = false)
    (hplatform : ∀ dx ∈ intRange (-1) 1, ∀ dz ∈ intRange (-1) 1,
      solidAt w (playerPos.plus ⟨dx, -1, dz⟩) = true) :
    (trapLogic cfg env w s playerPos).2.1 = trapBuild env cfg.trapBlock playerPos w ∧
    (∀ i (hi : i < trapOffsets.length),
      emptyAt (((trapOffsets.take i).map fun t => playerPos.plus t.pos).foldl
          (placeTrapBlock env cfg.trapBlock) w)
        (playerPos.plus (trapOffsets.get ⟨i, hi⟩).pos) = true →
      (∃ adj ∈ adjacentOffsets,
        solidAt (((trapOffsets.take i).map fun t => playerPos.plus t.pos).foldl
            (placeTrapBlock env cfg.trapBlock) w)
          ((playerPos.plus (trapOffsets.get ⟨i, hi⟩).pos).plus adj) = true) →
      emptyAt (trapLogic cfg env w s playerPos).2.1
        (playerPos.plus (trapOffsets.get ⟨i, hi⟩).pos) = false) := by
  have hrun : (trapLogic cfg env w s playerPos).2.1 =
      trapBuild env cfg.trapBlock playerPos w := by
    unfold trapLogic
    rw [if_neg (by simp [hguard]), if_neg hclose]
    rcases hgb : getBlockInHand env cfg.trapBlock with ⟨o, e1⟩
    rw [hgb] at hitem
    dsimp only at hitem
    subst hitem
    dsimp only
    rw [if_neg (by simp [hequip])]
  refine ⟨hrun, ?_⟩
  intro i hi hempty hadj
  rw [hrun]
  have h1 : trapOffsets.take i ++ [trapOffsets.get ⟨i, hi⟩] = trapOffsets.take (i + 1) := by
    rw [← List.take_concat_get trapOffsets i hi, List.concat_eq_append]
    rfl
  have h2 : trapOffsets = (trapOffsets.take i ++ [trapOffsets.get ⟨i, hi⟩]) ++
      trapOffsets.drop (i + 1) := by
    rw [h1, List.take_append_drop]
  have hfilled : solidAt (placeTrapBlock env cfg.trapBlock
      (((trapOffsets.take i).map fun t => playerPos.plus t.pos).foldl
        (placeTrapBlock env cfg.trapBlock) w)
      (playerPos.plus (trapOffsets.get ⟨i, hi⟩).pos))
      (playerPos.plus (trapOffsets.get ⟨i, hi⟩).pos) = true :=
    placeTrapBlock_fills env cfg.trapBlock hempty hadj hplace
  have hsplit : trapBuild env cfg.trapBlock playerPos w =
      ((trapOffsets.drop (i + 1)).map fun t => playerPos.plus t.pos).foldl
        (placeTrapBlock env cfg.trapBlock)
        (placeTrapBlock env cfg.trapBlock
          (((trapOffsets.take i).map fun t => playerPos.plus t.pos).foldl
            (placeTrapBlock env cfg.trapBlock) w)
          (playerPos.plus (trapOffsets.get ⟨i, hi⟩).pos)) := by
    unfold trapBuild
    conv_lhs => rw [h2]
    rw [List.map_append, List.map_append, List.foldl_append, List.foldl_append]
    rfl
  have hfinal : solidAt (trapBuild env cfg.trapBlock playerPos w)
      (playerPos.plus (trapOffsets.get ⟨i, hi⟩).pos) = true := by
    rw [hsplit]
    exact solidAt_foldl env cfg.trapBlock _ hfilled
  exact solidAt_ne_emptyAt hfinal

theorem c5_trap_invariant_witness :
    emptyAt (trapLogic cfg0 envBob wPlat trapState ⟨0, 0, 0⟩).2.1
      (Vec3i.plus ⟨0, 0, 0⟩ (trapOffsets.get ⟨8, by decide⟩).pos) = false :=
  (c5_trap_invariant cfg0 envBob wPlat trapState ⟨0, 0, 0⟩ (fun _ _ => rfl) rfl
    (by decide) rfl rfl (by decide)).2 8 (by decide) (by decide) (by decide)

end Depster

